import Mathlib

/-!
Verification development for the reminder-bot core (`bot.py`).

The embedding models, directly from the source:
  * the in-memory stores `tasks : {user_id ↦ [task, ...]}` and
    `pending_reminders : {uid ↦ {user_id, task, task_index}}` as functions
    `Nat → List String` and `String → Option PendingInfo`;
  * instants (`datetime` in the fixed `Asia/Jakarta` zone) as integer
    seconds counted from a midnight-aligned epoch (second granularity:
    `timedelta(minutes=m)` is `m * 60`, `now.replace(hour=h, minute=mi,
    second=0, microsecond=0)` is `midnight now + h*3600 + mi*60`, and a
    calendar day is `86400` seconds);
  * APScheduler jobs created by `schedule_reminder` as `ReminderJob`
    values returned in a list (the only scheduling effect of a handler);
  * Python `int(s)` conversion as `pythonInt` (whitespace strip, optional
    sign, decimal digits) and Python list indexing (negative indices count
    from the end) as `pyGet`;
  * the handlers `add_task`, `list_tasks`, `delete_task`, `remind` and the
    token-bearing branches (`complete` / `later` / `snooze` / `back`) of
    `button_handler` as pure state transformers returning the new stores,
    the scheduled jobs and the reply sent to the user.
-/

/-- One entry of `pending_reminders`: `{"user_id":..., "task":..., "task_index":...}`
(`task_index` is a Python int, so it may be negative). -/
structure PendingInfo where
  user_id : Nat
  task : String
  task_index : Int
deriving DecidableEq, Repr

/-- A job enqueued by `schedule_reminder(run_time, user_id, task, task_index)`. -/
structure ReminderJob where
  run_time : Int
  user_id : Nat
  task : String
  task_index : Int
deriving DecidableEq, Repr

/-- The two global stores of `bot.py`: `tasks` and `pending_reminders`. -/
structure BotState where
  tasks : Nat → List String
  pending : String → Option PendingInfo

/-- Functional update of the per-owner task lists (a Python dict write). -/
def updateTasks (f : Nat → List String) (u : Nat) (l : List String) : Nat → List String :=
  fun v => if v = u then l else f v

/-- `pending_reminders.pop(uid, None)`: remove a key, no-op when absent. -/
def removeKey (p : String → Option PendingInfo) (k : String) : String → Option PendingInfo :=
  fun v => if v = k then none else p v

/-- ASCII whitespace, as stripped by Python `str.strip()` / `int()`. -/
def isPySpace (c : Char) : Bool := c = ' ' ∨ c = '\t' ∨ c = '\n' ∨ c = '\r'

/-- Strip leading and trailing whitespace from a character list. -/
def pyStripChars (l : List Char) : List Char :=
  ((l.dropWhile isPySpace).reverse.dropWhile isPySpace).reverse

/-- Python `str.strip()`. -/
def pyStrip (s : String) : String := String.mk (pyStripChars s.data)

/-- Value of a run of decimal digits. -/
def digitsVal (l : List Char) : Int :=
  Int.ofNat (l.foldl (fun a c => a * 10 + (c.toNat - 48)) 0)

/-- Python `int(·)` on a character list: strip surrounding whitespace,
optional `+`/`-` sign, then a non-empty run of decimal digits; anything
else raises `ValueError` (modelled as `none`). -/
def pythonIntChars (l : List Char) : Option Int :=
  match pyStripChars l with
  | [] => none
  | '+' :: rest =>
      if rest ≠ [] ∧ rest.all Char.isDigit then some (digitsVal rest) else none
  | '-' :: rest =>
      if rest ≠ [] ∧ rest.all Char.isDigit then some (-(digitsVal rest)) else none
  | cs =>
      if cs.all Char.isDigit then some (digitsVal cs) else none

/-- Python `int(s)` for a string. -/
def pythonInt (s : String) : Option Int := pythonIntChars s.data

/-- Python list indexing `l[i]`: non-negative indices from the front,
negative indices from the back, `IndexError` (modelled as `none`) otherwise. -/
def pyGet (l : List String) (i : Int) : Option String :=
  if 0 ≤ i ∧ i < (l.length : Int) then l.get? i.toNat
  else if -(l.length : Int) ≤ i ∧ i < 0 then l.get? ((l.length : Int) + i).toNat
  else none

/-- Python `s.split(sep)` for a single-character separator: a list of the
(possibly empty) groups between occurrences of `sep`. -/
def splitOnChar (sep : Char) : List Char → List (List Char)
  | [] => [[]]
  | c :: rest =>
      match splitOnChar sep rest with
      | [] => if c = sep then [[], []] else [[c]]
      | g :: gs => if c = sep then [] :: g :: gs else (c :: g) :: gs

/-- `hour, minute = map(int, s.split(":"))`: succeeds exactly when the split
yields two parts and both convert. -/
def parseHM (s : String) : Option (Int × Int) :=
  match splitOnChar ':' s.data with
  | [a, b] =>
      match pythonIntChars a, pythonIntChars b with
      | some h, some m => some (h, m)
      | _, _ => none
  | _ => none

/-- Python `str.lower()` (ASCII case folding suffices for the mode keywords). -/
def pyLower (s : String) : String := String.mk (s.data.map Char.toLower)

/-- Seconds in a calendar day. -/
def SECS_PER_DAY : Int := 86400

/-- The midnight (00:00:00) preceding instant `t` in the fixed timezone
(floor division; `/` on `Int` is Euclidean division, which agrees with
floor division for the positive divisor `86400`). -/
def midnight (t : Int) : Int := SECS_PER_DAY * (t / SECS_PER_DAY)

/-- Wall-clock time of `t` as seconds since its midnight. -/
def timeOfDay (t : Int) : Int := t % SECS_PER_DAY

/-- `now.replace(hour=h, minute=m, second=0, microsecond=0)`. -/
def replaceHM (now h m : Int) : Int := midnight now + (h * 3600 + m * 60)

/-- The `at`-mode schedule computation of `remind`:
`run_time = now.replace(hour=h, minute=m, second=0, microsecond=0)` followed by
`if run_time <= now: run_time += timedelta(days=1)`. -/
def resolveAbsolute (now h m : Int) : Int :=
  let rt := replaceHM now h m
  if rt ≤ now then rt + SECS_PER_DAY else rt

/-- The `in`-mode schedule computation (`remind` and `snooze` alike):
`now + timedelta(minutes=m)`. -/
def resolveRelative (now m : Int) : Int := now + m * 60

/-- Reply sent by `add_task`. -/
inductive AddOutcome where
  | emptyTask
  | added (task : String)
deriving DecidableEq, Repr

/-- `add_task`: strip the task text; reject if empty, else append to the
owner's list (`tasks.setdefault(user_id, []).append(task)`). -/
def add_task (tasks : Nat → List String) (user_id : Nat) (text : String) :
    (Nat → List String) × AddOutcome :=
  let task := pyStrip text
  if task = "" then (tasks, .emptyTask)
  else (updateTasks tasks user_id (tasks user_id ++ [task]), .added task)

/-- `list_tasks`: `tasks.get(user_id, [])`, rendered in order. -/
def list_tasks (tasks : Nat → List String) (user_id : Nat) : List String :=
  tasks user_id

/-- Reply sent by `delete_task`. -/
inductive DeleteOutcome where
  | noTasks
  | noArg
  | invalidNumber
  | notANumber
  | deleted (task : String)
deriving DecidableEq, Repr

/-- `delete_task`: guard for an empty list and a missing argument, convert
`args[0]` with `int`, bounds-check `task_index = int(args[0]) - 1`, then
`user_tasks.pop(task_index)`. -/
def delete_task (tasks : Nat → List String) (user_id : Nat) (args : List String) :
    (Nat → List String) × DeleteOutcome :=
  let user_tasks := tasks user_id
  if user_tasks = [] then (tasks, .noTasks)
  else if args.length = 0 then (tasks, .noArg)
  else
    match pythonInt (args.getD 0 "") with
    | none => (tasks, .notANumber)
    | some n =>
      let task_index := n - 1
      if task_index < 0 ∨ (user_tasks.length : Int) ≤ task_index then
        (tasks, .invalidNumber)
      else
        (updateTasks tasks user_id (user_tasks.eraseIdx task_index.toNat),
         .deleted (user_tasks.getD task_index.toNat ""))

/-- Reply sent by `remind`. -/
inductive RemindOutcome where
  | noTasks
  | selectMenu
  | usage
  | invalidTask
  | badMinutes
  | badTime
  | badMode
  | scheduled (run_time : Int) (task_index : Int) (task : String)
deriving DecidableEq, Repr

/-- `remind`: guards, task lookup by Python indexing, then the `in` / `at`
time resolution; a successful parse calls
`schedule_reminder(run_time, user_id, task, task_index)` (the returned job
list). The handler reads but never writes the stores. -/
def remind (tasks : Nat → List String) (user_id : Nat) (args : List String) (now : Int) :
    RemindOutcome × List ReminderJob :=
  let user_tasks := tasks user_id
  if user_tasks = [] then (.noTasks, [])
  else if args.length = 0 then (.selectMenu, [])
  else if args.length < 3 then (.usage, [])
  else
    match pythonInt (args.getD 0 "") with
    | none => (.invalidTask, [])
    | some n =>
      let task_index := n - 1
      match pyGet user_tasks task_index with
      | none => (.invalidTask, [])
      | some task =>
        let mode := pyLower (args.getD 1 "")
        if mode = "in" then
          match pythonInt (args.getD 2 "") with
          | none => (.badMinutes, [])
          | some minutes =>
            let run_time := resolveRelative now minutes
            (.scheduled run_time task_index task, [⟨run_time, user_id, task, task_index⟩])
        else if mode = "at" then
          match parseHM (args.getD 2 "") with
          | none => (.badTime, [])
          | some (h, m) =>
            if 0 ≤ h ∧ h ≤ 23 ∧ 0 ≤ m ∧ m ≤ 59 then
              let run_time := resolveAbsolute now h m
              (.scheduled run_time task_index task, [⟨run_time, user_id, task, task_index⟩])
            else (.badTime, [])
        else (.badMode, [])

/-- The token-bearing callback actions of `button_handler` (decoded from the
`"<action>_<uid>"` / `"snooze_<uid>_<minutes>"` callback payloads; a uuid hex
token contains no underscore, so the decoding is faithful). -/
inductive BtnAction where
  | complete (uid : String)
  | later (uid : String)
  | snooze (uid : String) (minutes : Int)
  | back (uid : String)
deriving DecidableEq, Repr

/-- The token `data[1]` carried by an action. -/
def BtnAction.token : BtnAction → String
  | .complete u => u
  | .later u => u
  | .snooze u _ => u
  | .back u => u

/-- Reply produced by `button_handler` for a token-bearing action. -/
inductive BtnOutcome where
  | noLongerAvailable
  | completedMsg (task : String)
  | taskNotFoundMsg
  | snoozeMenuMsg (task : String)
  | snoozedMsg (task : String) (minutes : Int)
  | backViewMsg (task : String)
deriving DecidableEq, Repr

/-- `button_handler` on a token-bearing action: look the token up in
`pending_reminders`; absent tokens report "no longer available". On
`complete`, remove by stored text (`user_tasks.remove(task)`) when present,
else by the stale stored index (`user_tasks.pop(task_index)`) when in range,
else report "task not found"; the pending entry is popped in every branch.
On `later` / `back` only the message changes. On `snooze m`, schedule a new
job at `now + m` minutes and pop the pending entry. -/
def button_handler (st : BotState) (a : BtnAction) (now : Int) :
    BotState × List ReminderJob × BtnOutcome :=
  match st.pending a.token with
  | none => (st, [], .noLongerAvailable)
  | some info =>
    match a with
    | .complete u =>
      let user_tasks := st.tasks info.user_id
      if info.task ∈ user_tasks then
        (⟨updateTasks st.tasks info.user_id (user_tasks.erase info.task),
          removeKey st.pending u⟩, [], .completedMsg info.task)
      else if 0 ≤ info.task_index ∧ info.task_index < (user_tasks.length : Int) then
        (⟨updateTasks st.tasks info.user_id (user_tasks.eraseIdx info.task_index.toNat),
          removeKey st.pending u⟩, [], .completedMsg info.task)
      else
        (⟨st.tasks, removeKey st.pending u⟩, [], .taskNotFoundMsg)
    | .later _ => (st, [], .snoozeMenuMsg info.task)
    | .snooze u m =>
      (⟨st.tasks, removeKey st.pending u⟩,
       [⟨resolveRelative now m, info.user_id, info.task, info.task_index⟩],
       .snoozedMsg info.task m)
    | .back _ => (st, [], .backViewMsg info.task)

/-- Iterated `add_task` calls for one owner, in order. -/
def addMany (tasks : Nat → List String) (user_id : Nat) : List String → (Nat → List String)
  | [] => tasks
  | t :: ts => addMany (add_task tasks user_id t).1 user_id ts

/-! ## Helper lemmas -/

theorem button_handler_absent (st : BotState) (a : BtnAction) (now : Int)
    (h : st.pending a.token = none) :
    button_handler st a now = (st, [], .noLongerAvailable) := by
  cases a <;> simp_all [button_handler, BtnAction.token]

theorem complete_pending_none (st : BotState) (u : String) (now : Int)
    (info : PendingInfo) (h : st.pending u = some info) :
    (button_handler st (.complete u) now).1.pending u = none := by
  simp only [button_handler, BtnAction.token, h]
  split_ifs <;> simp [removeKey]

/-! ## Claims -/

/-- C5: a `Complete`, `Defer` (`later`), `SnoozeChoice` (`snooze`) or `Back`
action whose token is absent from `pending_reminders` reports "no longer
available", schedules nothing, and leaves both stores untouched (the state
returned is the input state itself). -/
theorem C5_unknown_token (st : BotState) (a : BtnAction) (now : Int)
    (h : st.pending a.token = none) :
    button_handler st a now = (st, [], .noLongerAvailable) :=
  button_handler_absent st a now h

/-- Witness for C5 at a concrete empty registry. -/
theorem C5_unknown_token_witness :
    button_handler ⟨fun _ => [], fun _ => none⟩ (.complete "deadbeef") 0 =
      (⟨fun _ => [], fun _ => none⟩, [], .noLongerAvailable) :=
  C5_unknown_token ⟨fun _ => [], fun _ => none⟩ (.complete "deadbeef") 0 rfl

/-- C2: a `snooze m` action (m from the 5/10/30 menu) on a token present in
`pending_reminders` schedules exactly one new job with fire time
`now + m` minutes for the stored owner and task reference, removes the
pending entry (the token is no longer resolvable), and reports the new
schedule. -/
theorem C2_snooze (st : BotState) (u : String) (m now : Int) (info : PendingInfo)
    (hmenu : m = 5 ∨ m = 10 ∨ m = 30)
    (h : st.pending u = some info) :
    (button_handler st (.snooze u m) now).2.1 =
      [⟨now + m * 60, info.user_id, info.task, info.task_index⟩] ∧
    (button_handler st (.snooze u m) now).1.pending u = none ∧
    (button_handler st (.snooze u m) now).2.2 = .snoozedMsg info.task m := by
  simp [button_handler, BtnAction.token, h, resolveRelative, removeKey]

/-- Witness for C2 at a concrete state and m = 10. -/
theorem C2_snooze_witness :
    (button_handler ⟨fun u => if u = 7 then ["pay rent"] else [],
        fun k => if k = "tk" then some ⟨7, "pay rent", 0⟩ else none⟩
        (.snooze "tk" 10) 100).2.1 = [⟨700, 7, "pay rent", 0⟩] ∧
    (button_handler ⟨fun u => if u = 7 then ["pay rent"] else [],
        fun k => if k = "tk" then some ⟨7, "pay rent", 0⟩ else none⟩
        (.snooze "tk" 10) 100).1.pending "tk" = none ∧
    (button_handler ⟨fun u => if u = 7 then ["pay rent"] else [],
        fun k => if k = "tk" then some ⟨7, "pay rent", 0⟩ else none⟩
        (.snooze "tk" 10) 100).2.2 = .snoozedMsg "pay rent" 10 :=
  C2_snooze _ "tk" 10 100 ⟨7, "pay rent", 0⟩ (Or.inr (Or.inl rfl)) rfl

/-- C6: completing a token present in `pending_reminders` always removes the
pending entry afterwards — whether the task was found and deleted or had
already vanished — so a second `complete` on the same token reports
"no longer available". -/
theorem C6_idempotent_cleanup (st : BotState) (u : String) (now now2 : Int)
    (info : PendingInfo) (h : st.pending u = some info) :
    (button_handler st (.complete u) now).1.pending u = none ∧
    (button_handler (button_handler st (.complete u) now).1 (.complete u) now2).2.2 =
      .noLongerAvailable := by
  have h1 := complete_pending_none st u now info h
  refine ⟨h1, ?_⟩
  rw [button_handler_absent _ _ now2 h1]

/-- Witness for C6: the task is present, gets deleted, and the second
`complete` still reports "no longer available". -/
theorem C6_idempotent_cleanup_witness :
    (button_handler ⟨fun u => if u = 1 then ["Buy milk", "Call mom"] else [],
        fun k => if k = "t6" then some ⟨1, "Buy milk", 0⟩ else none⟩
        (.complete "t6") 0).1.pending "t6" = none ∧
    (button_handler (button_handler ⟨fun u => if u = 1 then ["Buy milk", "Call mom"] else [],
        fun k => if k = "t6" then some ⟨1, "Buy milk", 0⟩ else none⟩
        (.complete "t6") 0).1 (.complete "t6") 5).2.2 = .noLongerAvailable :=
  C6_idempotent_cleanup _ "t6" 0 5 ⟨1, "Buy milk", 0⟩ rfl

/-- C10: completing a token present in the registry changes no other owner's
task list, and the acting owner's list loses at most one element while the
surviving tasks keep their relative order (the new list is a sublist of the
old one). -/
theorem C10_frame (st : BotState) (u : String) (now : Int)
    (info : PendingInfo) (h : st.pending u = some info) :
    (∀ o, o ≠ info.user_id →
        (button_handler st (.complete u) now).1.tasks o = st.tasks o) ∧
    List.Sublist ((button_handler st (.complete u) now).1.tasks info.user_id)
      (st.tasks info.user_id) ∧
    (st.tasks info.user_id).length ≤
      ((button_handler st (.complete u) now).1.tasks info.user_id).length + 1 := by
  simp only [button_handler, BtnAction.token, h]
  split_ifs with h1 h2
  · refine ⟨fun o ho => by simp [updateTasks, ho], ?_, ?_⟩
    · simpa [updateTasks] using List.erase_sublist info.task (st.tasks info.user_id)
    · have := List.length_erase_of_mem h1
      have hpos : 0 < (st.tasks info.user_id).length := List.length_pos.2 (by
        intro he; rw [he] at h1; exact (List.not_mem_nil _ h1))
      simp [updateTasks, this]
      omega
  · refine ⟨fun o ho => by simp [updateTasks, ho], ?_, ?_⟩
    · simpa [updateTasks] using
        List.eraseIdx_sublist (st.tasks info.user_id) info.task_index.toNat
    · have hlt : info.task_index.toNat < (st.tasks info.user_id).length := by omega
      have := List.length_eraseIdx_of_lt hlt
      simp [updateTasks, this]
      omega
  · exact ⟨fun o _ => rfl, List.Sublist.refl _, Nat.le_succ _⟩

/-- Witness for C10 at a concrete two-owner state. -/
theorem C10_frame_witness :
    (∀ o, o ≠ 1 →
        (button_handler ⟨fun u => if u = 1 then ["a", "b"] else ["z"],
            fun k => if k = "ta" then some ⟨1, "b", 0⟩ else none⟩
          (.complete "ta") 0).1.tasks o =
        (fun u => if u = 1 then ["a", "b"] else ["z"] : Nat → List String) o) ∧
    List.Sublist ((button_handler ⟨fun u => if u = 1 then ["a", "b"] else ["z"],
        fun k => if k = "ta" then some ⟨1, "b", 0⟩ else none⟩
        (.complete "ta") 0).1.tasks 1) ["a", "b"] ∧
    (["a", "b"] : List String).length ≤
      ((button_handler ⟨fun u => if u = 1 then ["a", "b"] else ["z"],
          fun k => if k = "ta" then some ⟨1, "b", 0⟩ else none⟩
        (.complete "ta") 0).1.tasks 1).length + 1 :=
  C10_frame _ "ta" 0 ⟨1, "b", 0⟩ rfl

/-- A state refuting C1 as stated: the pending entry for token `"tok"`
references task text `"B"` (no longer in the list) with stale index `0`,
while the owner's list holds the unrelated task `"A"`. -/
def c1State : BotState :=
  ⟨fun u => if u = 1 then ["A"] else [],
   fun k => if k = "tok" then some ⟨1, "B", 0⟩ else none⟩

/-- C1 counterexample: completing the valid token `"tok"` of `c1State`
removes task `"A"` — a task different from the referenced text `"B"`, which
is not even in the list — because the handler falls back to popping the
stale positional index. So a `Complete` on a valid token does not always
remove exactly the referenced task and leave all others unchanged. -/
theorem C1_counterexample :
    c1State.pending "tok" = some ⟨1, "B", 0⟩ ∧
    c1State.tasks 1 = ["A"] ∧
    "B" ∉ c1State.tasks 1 ∧
    (button_handler c1State (.complete "tok") 0).1.tasks 1 = [] := by
  refine ⟨rfl, rfl, by decide, ?_⟩
  simp [button_handler, BtnAction.token, c1State, updateTasks]

/-- C1 (amended): a `Complete` action on a token present in the registry
removes at most one task from the owner's list — the first task whose text
equals the stored text if one exists, otherwise the task currently at the
stale stored index if that index is in range, otherwise nothing — and the
surviving tasks keep their relative order (the new list is a sublist of the
old one). -/
theorem C1_complete_removal (st : BotState) (u : String) (now : Int)
    (info : PendingInfo) (h : st.pending u = some info) :
    (button_handler st (.complete u) now).1.tasks info.user_id =
      (if info.task ∈ st.tasks info.user_id then
        (st.tasks info.user_id).erase info.task
       else if 0 ≤ info.task_index ∧ info.task_index < ((st.tasks info.user_id).length : Int)
       then (st.tasks info.user_id).eraseIdx info.task_index.toNat
       else st.tasks info.user_id) ∧
    List.Sublist ((button_handler st (.complete u) now).1.tasks info.user_id)
      (st.tasks info.user_id) := by
  simp only [button_handler, BtnAction.token, h]
  split_ifs with h1 h2
  · exact ⟨by simp [updateTasks],
      by simpa [updateTasks] using List.erase_sublist info.task (st.tasks info.user_id)⟩
  · exact ⟨by simp [updateTasks],
      by simpa [updateTasks] using
        List.eraseIdx_sublist (st.tasks info.user_id) info.task_index.toNat⟩
  · exact ⟨rfl, List.Sublist.refl _⟩

/-- Witness for the amended C1: the referenced text is present, and exactly
its first occurrence is removed. -/
theorem C1_complete_removal_witness :
    (button_handler ⟨fun u => if u = 1 then ["Buy milk", "Call mom"] else [],
        fun k => if k = "t1" then some ⟨1, "Buy milk", 0⟩ else none⟩
        (.complete "t1") 0).1.tasks 1 = ["Call mom"] ∧
    List.Sublist ((button_handler ⟨fun u => if u = 1 then ["Buy milk", "Call mom"] else [],
        fun k => if k = "t1" then some ⟨1, "Buy milk", 0⟩ else none⟩
        (.complete "t1") 0).1.tasks 1) ["Buy milk", "Call mom"] := by
  have h := C1_complete_removal
    ⟨fun u => if u = 1 then ["Buy milk", "Call mom"] else [],
     fun k => if k = "t1" then some ⟨1, "Buy milk", 0⟩ else none⟩
    "t1" 0 ⟨1, "Buy milk", 0⟩ rfl
  obtain ⟨h1, h2⟩ := h
  exact ⟨by rw [h1]; decide, h2⟩

/-- C3: for in-range `h:m`, the `at`-mode resolution returns today's instant
with wall-clock `h:m` when `now`'s wall-clock time is strictly before `h:m`,
and tomorrow's instant with wall-clock `h:m` otherwise (equality included);
and `remind`'s `at` branch — the only call site — schedules exactly at
`resolveAbsolute now h m`, so the single rule governs every schedule. -/
theorem C3_absolute (now h m : Int)
    (hh0 : 0 ≤ h) (hh1 : h ≤ 23) (hm0 : 0 ≤ m) (hm1 : m ≤ 59) :
    (timeOfDay now < h * 3600 + m * 60 →
        resolveAbsolute now h m = midnight now + (h * 3600 + m * 60)) ∧
    (h * 3600 + m * 60 ≤ timeOfDay now →
        resolveAbsolute now h m = midnight now + (h * 3600 + m * 60) + SECS_PER_DAY) ∧
    (∀ tasks u a0 hmstr n task,
        tasks u ≠ [] →
        pythonInt a0 = some n →
        pyGet (tasks u) (n - 1) = some task →
        parseHM hmstr = some (h, m) →
        remind tasks u [a0, "at", hmstr] now =
          (.scheduled (resolveAbsolute now h m) (n - 1) task,
           [⟨resolveAbsolute now h m, u, task, n - 1⟩])) := by
  refine ⟨?_, ?_, ?_⟩
  · intro hlt
    simp only [resolveAbsolute, replaceHM, midnight, timeOfDay, SECS_PER_DAY] at *
    split_ifs with hle
    · omega
    · omega
  · intro hge
    simp only [resolveAbsolute, replaceHM, midnight, timeOfDay, SECS_PER_DAY] at *
    split_ifs with hle
    · omega
    · omega
  · intro tasks u a0 hmstr n task hne hn htask hp
    have hat : pyLower "at" = "at" := by decide
    have hin : ("at" : String) ≠ "in" := by decide
    simp [remind, hne, hn, htask, hp, hat, hin, hh0, hh1, hm0, hm1]

/-- Witness for C3: `now` = 10:00 resolves 14:30 to today (52200);
`now` = 14:30 exactly rolls over to tomorrow (138600). -/
theorem C3_absolute_witness :
    resolveAbsolute 36000 14 30 = 52200 ∧ resolveAbsolute 52200 14 30 = 138600 := by
  have h1 := (C3_absolute 36000 14 30 (by decide) (by decide) (by decide) (by decide)).1
    (by decide)
  have h2 := (C3_absolute 52200 14 30 (by decide) (by decide) (by decide) (by decide)).2.1
    (by decide)
  constructor
  · rw [h1]; decide
  · rw [h2]; decide

/-- C4: a relative specification of `m` minutes resolves to exactly
`now + m` minutes (`m * 60` seconds) at both call sites: the `in`-mode
branch of `remind` schedules its job at `now + m * 60`, and the `snooze`
branch of `button_handler` schedules its new job at `now + m * 60` for the
stored owner and task reference. -/
theorem C4_relative (now m : Int) (hm : 0 < m) :
    (∀ tasks u a0 a2 n task,
        tasks u ≠ [] →
        pythonInt a0 = some n →
        pyGet (tasks u) (n - 1) = some task →
        pythonInt a2 = some m →
        remind tasks u [a0, "in", a2] now =
          (.scheduled (now + m * 60) (n - 1) task,
           [⟨now + m * 60, u, task, n - 1⟩])) ∧
    (∀ st u info,
        st.pending u = some info →
        (button_handler st (.snooze u m) now).2.1 =
          [⟨now + m * 60, info.user_id, info.task, info.task_index⟩]) := by
  constructor
  · intro tasks u a0 a2 n task hne hn htask hmin
    have hini : pyLower "in" = "in" := by decide
    simp [remind, hne, hn, htask, hmin, hini, resolveRelative]
  · intro st u info h
    simp [button_handler, BtnAction.token, h, resolveRelative]

/-- Witness for C4 with m = 10 minutes at now = 0, for both call sites. -/
theorem C4_relative_witness :
    remind (fun u => if u = 1 then ["Buy milk"] else []) 1 ["1", "in", "10"] 0 =
      (.scheduled 600 0 "Buy milk", [⟨600, 1, "Buy milk", 0⟩]) ∧
    (button_handler ⟨fun u => if u = 1 then ["Buy milk"] else [],
        fun k => if k = "t4" then some ⟨1, "Buy milk", 0⟩ else none⟩
        (.snooze "t4" 10) 0).2.1 = [⟨600, 1, "Buy milk", 0⟩] := by
  have h := C4_relative 0 10 (by decide)
  constructor
  · have h1 := h.1 (fun u => if u = 1 then ["Buy milk"] else []) 1 "1" "10" 1 "Buy milk"
      (by decide) (by decide) (by decide) (by decide)
    simpa using h1
  · have h2 := h.2 ⟨fun u => if u = 1 then ["Buy milk"] else [],
      fun k => if k = "t4" then some ⟨1, "Buy milk", 0⟩ else none⟩ "t4"
      ⟨1, "Buy milk", 0⟩ rfl
    simpa using h2

/-- C7: after any sequence of successful `add_task` calls (each text
non-empty once stripped), `list_tasks` returns the previous list followed by
the added tasks in the order added — in particular, starting from an owner
with no tasks, exactly N tasks in insertion order after N adds. -/
theorem C7_list_after_adds (tasks : Nat → List String) (u : Nat) (ts : List String)
    (h : ∀ t ∈ ts, pyStrip t ≠ "") :
    list_tasks (addMany tasks u ts) u = list_tasks tasks u ++ ts.map pyStrip ∧
    (list_tasks (addMany tasks u ts) u).length =
      (list_tasks tasks u).length + ts.length := by
  have main : ∀ (l : List String) (tasks : Nat → List String),
      (∀ t ∈ l, pyStrip t ≠ "") →
      list_tasks (addMany tasks u l) u = list_tasks tasks u ++ l.map pyStrip := by
    intro l
    induction l with
    | nil => intro tasks _; simp [addMany, list_tasks]
    | cons t rest ih =>
      intro tasks hall
      have ht : pyStrip t ≠ "" := hall t (by simp)
      have hrest : ∀ x ∈ rest, pyStrip x ≠ "" := fun x hx => hall x (by simp [hx])
      show list_tasks (addMany (add_task tasks u t).1 u rest) u = _
      rw [ih _ hrest]
      simp [add_task, ht, list_tasks, updateTasks]
  have h1 := main ts tasks h
  exact ⟨h1, by rw [h1]; simp⟩

/-- Witness for C7: two adds onto an initially empty owner list. -/
theorem C7_list_after_adds_witness :
    list_tasks (addMany (fun _ => []) 1 ["Buy milk", " Call mom "]) 1 =
      ["Buy milk", "Call mom"] ∧
    (list_tasks (addMany (fun _ => []) 1 ["Buy milk", " Call mom "]) 1).length = 2 := by
  have h := C7_list_after_adds (fun _ => []) 1 ["Buy milk", " Call mom "] (by decide)
  obtain ⟨h1, h2⟩ := h
  constructor
  · rw [h1]; decide
  · rw [h2]; decide

/-- C8: a `delete_task` request whose reference does not resolve to an
existing task for the owner — the argument is not a number, or the position
is out of range (which subsumes an empty task list) — reports an error
without producing a deletion, leaves the task store unchanged, and repeating
the exact call fails identically. -/
theorem C8_delete_notfound (tasks : Nat → List String) (u : Nat) (args : List String)
    (hargs : args ≠ [])
    (href : ∀ n, pythonInt (args.getD 0 "") = some n →
        n - 1 < 0 ∨ ((tasks u).length : Int) ≤ n - 1) :
    (delete_task tasks u args).1 = tasks ∧
    (∀ t, (delete_task tasks u args).2 ≠ .deleted t) ∧
    delete_task ((delete_task tasks u args).1) u args = delete_task tasks u args := by
  have hlen : args.length ≠ 0 := by simpa using hargs
  have key : (delete_task tasks u args).1 = tasks ∧
      ∀ t, (delete_task tasks u args).2 ≠ .deleted t := by
    by_cases h0 : tasks u = []
    · simp [delete_task, h0]
    · rcases hp : pythonInt (args.getD 0 "") with _ | n
      · have hp' : pythonInt (args[0]?.getD "") = none := by simpa using hp
        simp [delete_task, h0, hlen, hp']
      · have hp' : pythonInt (args[0]?.getD "") = some n := by simpa using hp
        have hr : n < 1 ∨ ((tasks u).length : Int) ≤ n - 1 := by
          have := href n hp
          omega
        simp [delete_task, h0, hlen, hp', hr]
  exact ⟨key.1, key.2, by rw [key.1]⟩

/-- Witness for C8: position 5 on a one-element list. -/
theorem C8_delete_notfound_witness :
    (delete_task (fun _ => ["a"]) 1 ["5"]).1 = (fun _ => ["a"]) ∧
    (∀ t, (delete_task (fun _ => ["a"]) 1 ["5"]).2 ≠ .deleted t) ∧
    delete_task ((delete_task (fun _ => ["a"]) 1 ["5"]).1) 1 ["5"] =
      delete_task (fun _ => ["a"]) 1 ["5"] := by
  have h5 : pythonInt (["5"].getD 0 "") = some 5 := by decide
  refine C8_delete_notfound (fun _ => ["a"]) 1 ["5"] (by decide) ?_
  intro n hn
  rw [h5] at hn
  have hn5 : n = 5 := by
    injection hn with h
    omega
  subst hn5
  decide

/-- C9: when a `remind` request reaches time resolution (the user has tasks
and the task number resolves) but the time specification is malformed — a
bad minute count in `in` mode, a bad `HH:MM` string or an out-of-range hour
or minute in `at` mode, or an unrecognized mode keyword — the handler
reports a parse error and schedules no job (and it never writes the
stores). -/
theorem C9_parse_errors (tasks : Nat → List String) (u : Nat) (args : List String)
    (now : Int) (n : Int) (task : String)
    (hne : tasks u ≠ [])
    (hlen : 3 ≤ args.length)
    (hn : pythonInt (args.getD 0 "") = some n)
    (htask : pyGet (tasks u) (n - 1) = some task)
    (hbad :
      (pyLower (args.getD 1 "") = "in" ∧ pythonInt (args.getD 2 "") = none) ∨
      (pyLower (args.getD 1 "") = "at" ∧
        (parseHM (args.getD 2 "") = none ∨
         ∃ hh mm, parseHM (args.getD 2 "") = some (hh, mm) ∧
           ¬(0 ≤ hh ∧ hh ≤ 23 ∧ 0 ≤ mm ∧ mm ≤ 59))) ∨
      (pyLower (args.getD 1 "") ≠ "in" ∧ pyLower (args.getD 1 "") ≠ "at")) :
    ((remind tasks u args now).1 = .badMinutes ∨
     (remind tasks u args now).1 = .badTime ∨
     (remind tasks u args now).1 = .badMode) ∧
    (remind tasks u args now).2 = [] := by
  have hl0 : args.length ≠ 0 := by omega
  have hl3 : ¬ args.length < 3 := by omega
  have hia : ("at" : String) ≠ "in" := by decide
  have hn' : pythonInt (args[0]?.getD "") = some n := by simpa using hn
  rcases hbad with ⟨hmode, hmin⟩ | ⟨hmode, hspec⟩ | ⟨h1, h2⟩
  · have hmode' : pyLower (args[1]?.getD "") = "in" := by simpa using hmode
    have hmin' : pythonInt (args[2]?.getD "") = none := by simpa using hmin
    simp [remind, hne, hl0, hl3, hn', htask, hmode', hmin']
  · have hmode' : pyLower (args[1]?.getD "") = "at" := by simpa using hmode
    rcases hspec with hnone | ⟨hh, mm, hsome, hrange⟩
    · have hnone' : parseHM (args[2]?.getD "") = none := by simpa using hnone
      simp [remind, hne, hl0, hl3, hn', htask, hmode', hia, hnone']
    · have hsome' : parseHM (args[2]?.getD "") = some (hh, mm) := by simpa using hsome
      simp [remind, hne, hl0, hl3, hn', htask, hmode', hia, hsome', hrange]
  · have h1' : pyLower (args[1]?.getD "") ≠ "in" := by simpa using h1
    have h2' : pyLower (args[1]?.getD "") ≠ "at" := by simpa using h2
    simp [remind, hne, hl0, hl3, hn', htask, h1', h2']

/-- Witness for C9: a malformed minute count in `in` mode. -/
theorem C9_parse_errors_witness :
    ((remind (fun _ => ["A"]) 1 ["1", "in", "soon"] 0).1 = .badMinutes ∨
     (remind (fun _ => ["A"]) 1 ["1", "in", "soon"] 0).1 = .badTime ∨
     (remind (fun _ => ["A"]) 1 ["1", "in", "soon"] 0).1 = .badMode) ∧
    (remind (fun _ => ["A"]) 1 ["1", "in", "soon"] 0).2 = [] :=
  C9_parse_errors (fun _ => ["A"]) 1 ["1", "in", "soon"] 0 1 "A"
    (by decide) (by decide) (by decide) (by decide)
    (Or.inl ⟨by decide, by decide⟩)
